import Mathlib

/-!
Verification of the runtime performance-management core of the
companycity-visualization repository: the object pool, the particle
system, the LOD manager, the animation loop and the camera controller.

Each TypeScript class is shallowly embedded as Lean data plus pure
transition functions.  JS numbers are modelled as elements of a linear
ordered field (instantiated at `ℚ` for concrete evaluation and at `ℝ`
where the mathematical constant π of the source appears); JS exceptions
become `Option`; the recursive `ObjectPool.acquire` is given explicit
fuel so that divergence is observable as `none` for every fuel.
-/

/-! ## ObjectPool (src/utils/ObjectPool.ts)

Pooled objects are identified by the order of their construction
(`createFn` is modelled as handing out consecutive ids `nextId`), the JS
array `available` is a stack whose head is the most recently pushed
element, and the JS `Set` `active` is an insertion-ordered duplicate-free
list built with `setAdd`/`List.erase`.  `validateFn` and the possibility
that the user `resetFn` throws are part of the configuration. -/

namespace Pool

structure Config where
  maxSize : Nat
  autoGrow : Bool
  autoShrink : Bool
  shrinkThreshold : ℚ
  initialSize : Nat
  validateFn : Nat → Bool
  /-- `resetOk x = false` models `resetFn` throwing on object `x`. -/
  resetOk : Nat → Bool

structure Stats where
  total : Int
  active : Int
  available : Int
  created : Int
  reused : Int
  disposed : Int
  peak : Int
deriving DecidableEq, Repr

structure State where
  available : List Nat
  active : List Nat
  nextId : Nat
  stats : Stats
  lastShrinkCheck : Int
deriving DecidableEq, Repr

def emptyState : State :=
  { available := [], active := [], nextId := 0
    stats := ⟨0, 0, 0, 0, 0, 0, 0⟩, lastShrinkCheck := 0 }

/-- JS `Set.add`: inserts only when absent. -/
def setAdd (l : List Nat) (x : Nat) : List Nat :=
  if x ∈ l then l else x :: l

/-- `getTotalSize(): available.length + active.size`. -/
def totalSize (s : State) : Nat :=
  s.available.length + s.active.length

/-- `createObject()`: throws (`none`) at `maxSize`, else constructs a
fresh object, pushes it on `available` and bumps the counters. -/
def createObject (s : State) (cfg : Config) : Option State :=
  if cfg.maxSize ≤ totalSize s then none
  else
    some { s with
      available := s.nextId :: s.available
      nextId := s.nextId + 1
      stats := { s.stats with
        created := s.stats.created + 1
        total := s.stats.total + 1
        available := s.stats.available + 1 } }

def initLoop (cfg : Config) : Nat → State → Option State
  | 0, s => some s
  | n + 1, s => (createObject s cfg).bind (initLoop cfg n)

/-- The constructor: `initialSize` calls to `createObject` from the empty
pool (`none` when one of them throws). -/
def initPool (cfg : Config) : Option State :=
  initLoop cfg cfg.initialSize emptyState

inductive AcquireResult where
  | ok (obj : Nat) (s : State)
  /-- the thrown `Error('Pool exhausted and cannot grow')` -/
  | exhausted (s : State)
deriving DecidableEq, Repr

def AcquireResult.state : AcquireResult → State
  | .ok _ s => s
  | .exhausted s => s

/-- The tail of `acquire` once validation passed: add to `active`, adjust
the active/available counters and the peak.  The source updates the peak
by `if (active > peak) peak = active`, i.e. `peak := max peak active`. -/
def finishAcquire (obj : Nat) (s : State) : State :=
  { s with
    active := setAdd s.active obj
    stats := { s.stats with
      active := s.stats.active + 1
      available := s.stats.available - 1
      peak := max s.stats.peak (s.stats.active + 1) } }

/-- One call of `acquire()`, with the recursive retry (`return
this.acquire()`) abstracted as `retry`. -/
def acquireGo (cfg : Config) (retry : State → Option AcquireResult)
    (s : State) : Option AcquireResult :=
  match s.available with
  | obj :: rest =>
    let s1 := { s with
      available := rest
      stats := { s.stats with reused := s.stats.reused + 1 } }
    if cfg.validateFn obj then
      some (.ok obj (finishAcquire obj s1))
    else
      retry { s1 with
        stats := { s1.stats with
          disposed := s1.stats.disposed + 1
          total := s1.stats.total - 1 } }
  | [] =>
    if cfg.autoGrow = true ∧ totalSize s < cfg.maxSize then
      let obj := s.nextId
      let s1 := { s with
        nextId := s.nextId + 1
        stats := { s.stats with
          created := s.stats.created + 1
          total := s.stats.total + 1 } }
      if cfg.validateFn obj then
        some (.ok obj (finishAcquire obj s1))
      else
        retry { s1 with
          stats := { s1.stats with
            disposed := s1.stats.disposed + 1
            total := s1.stats.total - 1 } }
    else
      some (.exhausted s)

/-- `acquire()`, fuelled: `none` means the recursion did not finish
within `fuel` retries (in particular, `(∀ fuel, acquire … = none)` is
divergence of the source's unbounded recursion). -/
def acquire (cfg : Config) : Nat → State → Option AcquireResult
  | 0, _ => none
  | fuel + 1, s => acquireGo cfg (acquire cfg fuel) s

/-- Pops up to `n` objects off `available`, disposing each. -/
def shrinkPop : Nat → State → State
  | 0, s => s
  | n + 1, s =>
    match s.available with
    | [] => s
    | _ :: rest =>
      shrinkPop n { s with
        available := rest
        stats := { s.stats with
          disposed := s.stats.disposed + 1
          total := s.stats.total - 1
          available := s.stats.available - 1 } }

/-- `checkShrink()`.  The JS utilization `stats.active / stats.total` is
float division: when `stats.total = 0` it yields NaN or ±∞ and (for the
non-negative `stats.active` of every reachable state) the comparison with
the threshold is false, which the `stats.total ≠ 0` guard reproduces.
`Math.floor(len * 0.25)` is `len / 4` in `Nat`. -/
def checkShrink (cfg : Config) (now : Int) (s : State) : State :=
  if now - s.lastShrinkCheck < 5000 then s
  else
    let s := { s with lastShrinkCheck := now }
    if s.stats.total ≠ 0 ∧
        (s.stats.active : ℚ) / (s.stats.total : ℚ) < cfg.shrinkThreshold ∧
        cfg.initialSize < s.available.length then
      shrinkPop (min (s.available.length - cfg.initialSize)
        (s.available.length / 4)) s
    else s

/-- `release(obj)` at wall-clock `now` (used only by the throttled shrink
check). -/
def release (cfg : Config) (now : Int) (obj : Nat) (s : State) : State :=
  if obj ∈ s.active then
    let s1 := { s with
      active := s.active.erase obj
      stats := { s.stats with active := s.stats.active - 1 } }
    if cfg.resetOk obj then
      let s2 := { s1 with
        available := obj :: s1.available
        stats := { s1.stats with available := s1.stats.available + 1 } }
      if cfg.autoShrink then checkShrink cfg now s2 else s2
    else
      { s1 with
        stats := { s1.stats with
          disposed := s1.stats.disposed + 1
          total := s1.stats.total - 1 } }
  else s

/-- `getUtilization(): total > 0 ? active.size / total : 0`. -/
def getUtilization (s : State) : ℚ :=
  if 0 < totalSize s then (s.active.length : ℚ) / (totalSize s : ℚ) else 0

/-- A client-visible pool call: an `acquire` or a `release` of a given
object at a given wall-clock time. -/
inductive Op where
  | acq
  | rel (now : Int) (obj : Nat)

/-- Runs a sequence of client calls.  An exhaustion failure is an
exception the caller catches (the pool state it leaves behind is kept);
`none` only when some `acquire` exceeds its fuel. -/
def runOps (cfg : Config) (fuel : Nat) : List Op → State → Option State
  | [], s => some s
  | .acq :: ops, s =>
    match acquire cfg fuel s with
    | none => none
    | some (.ok _ s1) => runOps cfg fuel ops s1
    | some (.exhausted s1) => runOps cfg fuel ops s1
  | .rel now obj :: ops, s => runOps cfg fuel ops (release cfg now obj s)

/-- `acquire` diverges from `s`: no amount of fuel finishes it. -/
def acquireDiverges (cfg : Config) (s : State) : Prop :=
  ∀ fuel, acquire cfg fuel s = none

theorem acquire_succ (cfg : Config) (fuel : Nat) (s : State) :
    acquire cfg (fuel + 1) s = acquireGo cfg (acquire cfg fuel) s := rfl

end Pool

/-! ## Claims C1 and C10 (ObjectPool.acquire termination; getUtilization) -/

namespace Pool

/-- When the validator rejects every object, `autoGrow` is on and the pool
is below `maxSize` with nothing available and nothing active, `acquire`
never finishes: each retry constructs a fresh instance that belongs to
neither `available` nor `active`, so `getTotalSize()` never moves. -/
theorem acquire_none_of_always_invalid (cfg : Config)
    (hg : cfg.autoGrow = true) (hv : ∀ x, cfg.validateFn x = false)
    (hm : 0 < cfg.maxSize) :
    ∀ fuel (s : State), s.available = [] → s.active = [] →
      acquire cfg fuel s = none := by
  intro fuel
  induction fuel with
  | zero => intro s _ _; rfl
  | succ n ih =>
    intro s hav hac
    rw [acquire_succ]
    simp only [acquireGo, hav]
    rw [if_pos ⟨hg, by simp [totalSize, hav, hac, hm]⟩, hv s.nextId]
    simp only [Bool.false_eq_true, if_false]
    exact ih _ rfl hac

/-- A configuration whose validator rejects everything while the pool may
still grow. -/
def c1cfg : Config :=
  { maxSize := 2, autoGrow := true, autoShrink := false
    shrinkThreshold := 1/2, initialSize := 0
    validateFn := fun _ => false, resetOk := fun _ => true }

/-- C1 counterexample: with `autoGrow = true` and a validator that rejects
every instance, `acquire()` from the empty pool diverges — no finite retry
chain returns or fails with exhaustion, contradicting the claimed
termination for every configuration. -/
theorem acquire_diverges_on_rejecting_validator :
    acquireDiverges c1cfg emptyState := fun fuel =>
  acquire_none_of_always_invalid c1cfg rfl (fun _ => rfl) (by decide)
    fuel emptyState rfl rfl

theorem acquire_isSome_aux (cfg : Config) (hg : cfg.autoGrow = false) :
    ∀ (l : List Nat) (s : State), s.available = l →
      (acquire cfg (l.length + 1) s).isSome = true := by
  intro l
  induction l with
  | nil =>
    intro s hav
    rw [List.length_nil, acquire_succ]
    simp only [acquireGo, hav]
    rw [if_neg (by simp [hg])]
    rfl
  | cons a rest ih =>
    intro s hav
    rw [List.length_cons, acquire_succ]
    simp only [acquireGo, hav]
    by_cases hv : cfg.validateFn a
    · simp [hv]
    · simp only [hv, Bool.false_eq_true, if_false]
      apply ih
      rfl

/-- C1 (amended): with `autoGrow = false` every retry consumes one entry of
`available`, so `acquire()` finishes within `available.length + 1` steps,
returning an instance or failing with exhaustion.  (With `autoGrow = true`
and a validator rejecting fresh instances it diverges, see the
counterexample.) -/
theorem acquire_terminates_without_autoGrow (cfg : Config) (s : State)
    (hg : cfg.autoGrow = false) :
    (acquire cfg (s.available.length + 1) s).isSome = true :=
  acquire_isSome_aux cfg hg s.available s rfl

/-- A configuration that cannot grow. -/
def c1cfgNoGrow : Config :=
  { maxSize := 2, autoGrow := false, autoShrink := false
    shrinkThreshold := 1/2, initialSize := 0
    validateFn := fun _ => true, resetOk := fun _ => true }

/-- C1 witness: the no-growth termination bound at the empty pool. -/
theorem acquire_terminates_without_autoGrow_witness :
    (acquire c1cfgNoGrow (emptyState.available.length + 1)
      emptyState).isSome = true :=
  acquire_terminates_without_autoGrow c1cfgNoGrow emptyState rfl

/-- C10: `getUtilization()` is total and guards its division: it returns 0
when `available.length + active.size = 0` and `active.size / total`
otherwise. -/
theorem getUtilization_total_guard (s : State) :
    (totalSize s = 0 → getUtilization s = 0) ∧
    (totalSize s ≠ 0 →
      getUtilization s = (s.active.length : ℚ) / (totalSize s : ℚ)) := by
  constructor
  · intro h; simp [getUtilization, h]
  · intro h; rw [getUtilization, if_pos (Nat.pos_of_ne_zero h)]

end Pool

/-! ## Claim C2 (pool conservation) -/

namespace Pool

theorem setAdd_of_not_mem {l : List Nat} {x : Nat} (h : x ∉ l) :
    setAdd l x = x :: l := if_neg h

/-- The pool bookkeeping invariant: conservation of objects
(`available.length + active.size + stats.disposed = stats.created`)
together with the structural facts — ids below `nextId`, duplicate
freedom, available/active disjointness — that every operation keeps. -/
def Inv (s : State) : Prop :=
  ((s.available.length : Int) + s.active.length + s.stats.disposed
      = s.stats.created)
  ∧ s.available.Nodup
  ∧ s.active.Nodup
  ∧ (∀ x ∈ s.available, x < s.nextId)
  ∧ (∀ x ∈ s.active, x < s.nextId)
  ∧ (∀ x ∈ s.available, x ∉ s.active)

theorem inv_emptyState : Inv emptyState := by
  refine ⟨rfl, ?_, ?_, ?_, ?_, ?_⟩ <;> simp [emptyState]

theorem createObject_inv {cfg : Config} {s s' : State} (h : Inv s)
    (hc : createObject s cfg = some s') : Inv s' := by
  obtain ⟨h1, h2, h3, h4, h5, h6⟩ := h
  unfold createObject at hc
  split at hc
  · exact absurd hc (by simp)
  · obtain rfl : _ = s' := Option.some.injEq .. ▸ hc
    refine ⟨?_, ?_, h3, ?_, ?_, ?_⟩
    · simp only [List.length_cons]
      push_cast
      omega
    · exact List.nodup_cons.mpr ⟨fun hm => absurd (h4 _ hm) (lt_irrefl _), h2⟩
    · intro x hx
      rcases List.mem_cons.mp hx with rfl | hx
      · exact Nat.lt_succ_self _
      · exact Nat.lt_succ_of_lt (h4 x hx)
    · exact fun x hx => Nat.lt_succ_of_lt (h5 x hx)
    · intro x hx
      rcases List.mem_cons.mp hx with rfl | hx
      · exact fun hm => absurd (h5 _ hm) (lt_irrefl _)
      · exact h6 x hx

theorem initLoop_inv {cfg : Config} :
    ∀ {n : Nat} {s s' : State}, Inv s → initLoop cfg n s = some s' →
      Inv s' := by
  intro n
  induction n with
  | zero =>
    intro s s' h hc
    obtain rfl : s = s' := Option.some.injEq .. ▸ hc
    exact h
  | succ m ih =>
    intro s s' h hc
    unfold initLoop at hc
    cases hcr : createObject s cfg with
    | none => rw [hcr] at hc; exact absurd hc (by simp)
    | some t =>
      rw [hcr] at hc
      exact ih (createObject_inv h hcr) hc

theorem initPool_inv {cfg : Config} {s : State}
    (h : initPool cfg = some s) : Inv s :=
  initLoop_inv inv_emptyState h

/-- The state after popping `obj` off `available` and passing
validation. -/
theorem inv_pop_finish {s : State} {obj : Nat} {rest : List Nat}
    (heq : s.available = obj :: rest) (h : Inv s) :
    Inv (finishAcquire obj
      { s with available := rest
               stats := { s.stats with
                 reused := s.stats.reused + 1 } }) := by
  obtain ⟨h1, h2, h3, h4, h5, h6⟩ := h
  rw [heq] at h1 h2 h4 h6
  have hobj_act : obj ∉ s.active := h6 obj (List.mem_cons_self obj rest)
  have hobj_nid : obj < s.nextId := h4 obj (List.mem_cons_self obj rest)
  have hrest : obj ∉ rest := (List.nodup_cons.mp h2).1
  refine ⟨?_, (List.nodup_cons.mp h2).2, ?_, ?_, ?_, ?_⟩ <;>
    simp only [finishAcquire, setAdd_of_not_mem hobj_act]
  · simp only [List.length_cons] at h1
    simp only [List.length_cons]
    push_cast at h1 ⊢
    omega
  · exact List.nodup_cons.mpr ⟨hobj_act, h3⟩
  · exact fun x hx => h4 x (List.mem_cons_of_mem _ hx)
  · intro x hx
    rcases List.mem_cons.mp hx with rfl | hx
    · exact hobj_nid
    · exact h5 x hx
  · intro x hx hmem
    rcases List.mem_cons.mp hmem with rfl | hmem
    · exact hrest hx
    · exact h6 x (List.mem_cons_of_mem _ hx) hmem

/-- The state after popping `obj` off `available` and disposing it on
validation failure. -/
theorem inv_pop_dispose {s : State} {obj : Nat} {rest : List Nat}
    (heq : s.available = obj :: rest) (h : Inv s) :
    Inv { s with available := rest
                 stats := { s.stats with
                   reused := s.stats.reused + 1
                   disposed := s.stats.disposed + 1
                   total := s.stats.total - 1 } } := by
  obtain ⟨h1, h2, h3, h4, h5, h6⟩ := h
  rw [heq] at h1 h2 h4 h6
  refine ⟨?_, (List.nodup_cons.mp h2).2, h3, ?_, h5, ?_⟩
  · simp only [List.length_cons] at h1
    push_cast at h1 ⊢
    omega
  · exact fun x hx => h4 x (List.mem_cons_of_mem _ hx)
  · exact fun x hx => h6 x (List.mem_cons_of_mem _ hx)

/-- The state after constructing a fresh instance that passed
validation. -/
theorem inv_grow_finish {s : State} (heq : s.available = []) (h : Inv s) :
    Inv (finishAcquire s.nextId
      { s with available := []
               nextId := s.nextId + 1
               stats := { s.stats with
                 created := s.stats.created + 1
                 total := s.stats.total + 1 } }) := by
  obtain ⟨h1, h2, h3, h4, h5, h6⟩ := h
  rw [heq] at h1 h2 h4 h6
  have hfresh : s.nextId ∉ s.active :=
    fun hm => absurd (h5 _ hm) (lt_irrefl _)
  refine ⟨?_, ?_, ?_, ?_, ?_, ?_⟩ <;>
    simp only [finishAcquire, setAdd_of_not_mem hfresh]
  · simp only [List.length_cons, List.length_nil]
    simp only [List.length_nil] at h1
    push_cast at h1 ⊢
    omega
  · exact List.nodup_nil
  · exact List.nodup_cons.mpr ⟨hfresh, h3⟩
  · exact fun x hx => absurd hx (List.not_mem_nil x)
  · intro x hx
    rcases List.mem_cons.mp hx with rfl | hx
    · exact Nat.lt_succ_self _
    · exact Nat.lt_succ_of_lt (h5 x hx)
  · exact fun x hx => absurd hx (List.not_mem_nil x)

/-- The state after constructing a fresh instance and disposing it on
validation failure. -/
theorem inv_grow_dispose {s : State} (heq : s.available = []) (h : Inv s) :
    Inv { s with available := []
                 nextId := s.nextId + 1
                 stats := { s.stats with
                   created := s.stats.created + 1
                   total := s.stats.total + 1 - 1
                   disposed := s.stats.disposed + 1 } } := by
  obtain ⟨h1, h2, h3, h4, h5, h6⟩ := h
  rw [heq] at h1
  refine ⟨?_, List.nodup_nil, h3, ?_, ?_, ?_⟩
  · simp only [List.length_nil] at h1 ⊢
    push_cast at h1 ⊢
    omega
  · exact fun x hx => absurd hx (List.not_mem_nil x)
  · exact fun x hx => Nat.lt_succ_of_lt (h5 x hx)
  · exact fun x hx => absurd hx (List.not_mem_nil x)

end Pool

namespace Pool

theorem acquire_inv {cfg : Config} :
    ∀ {fuel : Nat} {s : State} {r : AcquireResult},
      Inv s → acquire cfg fuel s = some r → Inv r.state := by
  intro fuel
  induction fuel with
  | zero =>
    intro s r _ h
    exact absurd h (by simp [acquire])
  | succ n ih =>
    intro s r hInv hacq
    rw [acquire_succ] at hacq
    unfold acquireGo at hacq
    cases hav : s.available with
    | cons obj rest =>
      simp only [hav] at hacq
      by_cases hv : cfg.validateFn obj = true
      · rw [if_pos hv] at hacq
        obtain rfl : _ = r := Option.some.injEq .. ▸ hacq
        exact inv_pop_finish hav hInv
      · rw [if_neg hv] at hacq
        exact ih (inv_pop_dispose hav hInv) hacq
    | nil =>
      simp only [hav] at hacq
      by_cases hc : cfg.autoGrow = true ∧ totalSize s < cfg.maxSize
      · rw [if_pos hc] at hacq
        by_cases hv : cfg.validateFn s.nextId = true
        · rw [if_pos hv] at hacq
          obtain rfl : _ = r := Option.some.injEq .. ▸ hacq
          exact inv_grow_finish hav hInv
        · rw [if_neg hv] at hacq
          exact ih (inv_grow_dispose hav hInv) hacq
      · rw [if_neg hc] at hacq
        obtain rfl : _ = r := Option.some.injEq .. ▸ hacq
        exact hInv

/-- Popping the top of `available` during a shrink keeps the
invariant. -/
theorem inv_tail_dispose {s : State} {a : Nat} {rest : List Nat}
    (heq : s.available = a :: rest) (h : Inv s) :
    Inv { s with available := rest
                 stats := { s.stats with
                   disposed := s.stats.disposed + 1
                   total := s.stats.total - 1
                   available := s.stats.available - 1 } } := by
  obtain ⟨h1, h2, h3, h4, h5, h6⟩ := h
  rw [heq] at h1 h2 h4 h6
  refine ⟨?_, (List.nodup_cons.mp h2).2, h3, ?_, h5, ?_⟩
  · simp only [List.length_cons] at h1
    push_cast at h1 ⊢
    omega
  · exact fun x hx => h4 x (List.mem_cons_of_mem _ hx)
  · exact fun x hx => h6 x (List.mem_cons_of_mem _ hx)

theorem shrinkPop_succ (n : Nat) (s : State) :
    shrinkPop (n + 1) s =
      match s.available with
      | [] => s
      | _ :: rest =>
        shrinkPop n { s with
          available := rest
          stats := { s.stats with
            disposed := s.stats.disposed + 1
            total := s.stats.total - 1
            available := s.stats.available - 1 } } := rfl

theorem shrinkPop_inv : ∀ (n : Nat) (s : State), Inv s →
    Inv (shrinkPop n s) := by
  intro n
  induction n with
  | zero => intro s h; exact h
  | succ m ih =>
    intro s h
    rw [shrinkPop_succ]
    cases hav : s.available with
    | nil => exact h
    | cons a rest => exact ih _ (inv_tail_dispose hav h)

theorem checkShrink_inv {cfg : Config} {now : Int} {s : State}
    (h : Inv s) : Inv (checkShrink cfg now s) := by
  unfold checkShrink
  split
  · exact h
  · dsimp only
    split
    · exact shrinkPop_inv _ _ h
    · exact h

theorem release_inv {cfg : Config} {now : Int} {obj : Nat} {s : State}
    (h : Inv s) : Inv (release cfg now obj s) := by
  unfold release
  split
  case isTrue hmem =>
    obtain ⟨h1, h2, h3, h4, h5, h6⟩ := h
    have hobj_av : obj ∉ s.available := fun hx => h6 obj hx hmem
    have herase : (s.active.erase obj).length = s.active.length - 1 :=
      List.length_erase_of_mem hmem
    have hpos : 1 ≤ s.active.length :=
      List.length_pos.mpr (List.ne_nil_of_mem hmem)
    have hrecycle : Inv
        { s with available := obj :: s.available
                 active := s.active.erase obj
                 stats := { s.stats with
                   active := s.stats.active - 1
                   available := s.stats.available + 1 } } := by
      refine ⟨?_, List.nodup_cons.mpr ⟨hobj_av, h2⟩, h3.erase obj,
        ?_, ?_, ?_⟩
      · simp only [List.length_cons, herase]
        push_cast at h1 ⊢
        omega
      · intro x hx
        rcases List.mem_cons.mp hx with rfl | hx
        · exact h5 x hmem
        · exact h4 x hx
      · exact fun x hx => h5 x (List.mem_of_mem_erase hx)
      · intro x hx
        rcases List.mem_cons.mp hx with rfl | hx
        · intro hcon
          exact absurd rfl ((h3.mem_erase_iff.mp hcon).1)
        · exact fun hcon => h6 x hx (List.mem_of_mem_erase hcon)
    split
    · split
      · exact checkShrink_inv hrecycle
      · exact hrecycle
    · refine ⟨?_, h2, h3.erase obj, h4,
        fun x hx => h5 x (List.mem_of_mem_erase hx),
        fun x hx hcon => h6 x hx (List.mem_of_mem_erase hcon)⟩
      simp only [herase]
      omega
  case isFalse => exact h

theorem runOps_inv {cfg : Config} {fuel : Nat} :
    ∀ {ops : List Op} {s s' : State}, Inv s →
      runOps cfg fuel ops s = some s' → Inv s' := by
  intro ops
  induction ops with
  | nil =>
    intro s s' h hr
    obtain rfl : s = s' := Option.some.injEq .. ▸ hr
    exact h
  | cons op rest ih =>
    intro s s' h hr
    cases op with
    | acq =>
      unfold runOps at hr
      cases hacq : acquire cfg fuel s with
      | none => rw [hacq] at hr; exact absurd hr (by simp)
      | some r =>
        rw [hacq] at hr
        cases r with
        | ok o t => exact ih (acquire_inv h hacq) hr
        | exhausted t => exact ih (acquire_inv h hacq) hr
    | rel now obj =>
      unfold runOps at hr
      exact ih (release_inv h) hr

/-- C2: for every constructed pool and every sequence of acquire/release
calls that finishes, `available.length + active.size` equals the number
of objects successfully constructed (`stats.created`) minus the number
disposed (`stats.disposed`).  This holds for all sequences, in
particular those that never exceed `maxSize` total objects. -/
theorem pool_conservation (cfg : Config) (fuel : Nat) (ops : List Op)
    (s0 sf : State) (h0 : initPool cfg = some s0)
    (hr : runOps cfg fuel ops s0 = some sf) :
    (sf.available.length : Int) + sf.active.length
      = sf.stats.created - sf.stats.disposed := by
  have h := runOps_inv (initPool_inv h0) hr
  have h1 := h.1
  omega

/-- A small pool and call sequence for the conservation witness. -/
def c2cfg : Config :=
  { maxSize := 3, autoGrow := true, autoShrink := false
    shrinkThreshold := 1/2, initialSize := 1
    validateFn := fun _ => true, resetOk := fun _ => true }

def c2ops : List Op := [.acq, .rel 0 0, .acq]

def c2s0 : State := (initPool c2cfg).getD emptyState

def c2sf : State := (runOps c2cfg 4 c2ops c2s0).getD emptyState

/-- C2 witness: conservation after acquire, release, acquire on a pool
pre-warmed with one object. -/
theorem pool_conservation_witness :
    (c2sf.available.length : Int) + c2sf.active.length
      = c2sf.stats.created - c2sf.stats.disposed :=
  pool_conservation c2cfg 4 c2ops c2s0 c2sf rfl rfl

end Pool

/-! ## Particles (src/components/ParticleSystem.ts)

JS numbers are modelled generically over a linear ordered field, so the
same definitions evaluate on `ℚ` and state facts on `ℝ`. -/

structure Vec3 (α : Type) where
  x : α
  y : α
  z : α
deriving DecidableEq, Repr

namespace Particle

structure ParticleData (α : Type) where
  position : Vec3 α
  velocity : Vec3 α
  life : α
  maxLife : α
deriving DecidableEq, Repr

variable {α : Type} [LinearOrderedField α]

/-- `DataParticle.update(deltaTime)`: decrement life (dead when ≤ 0,
returning `false` before anything else), integrate position, then the
gravity step — `velocity.y -= 9.8 * deltaTime * 0.1`, applied only while
`velocity.y > -10`.  Mesh position, opacity and trail updates touch
rendering state only and are omitted.  Returns (keep-alive, new data). -/
def particleUpdate (dt : α) (p : ParticleData α) : Bool × ParticleData α :=
  let p1 := { p with life := p.life - dt }
  if p1.life ≤ 0 then (false, p1)
  else
    let p2 := { p1 with position :=
      ⟨p1.position.x + p1.velocity.x * dt,
       p1.position.y + p1.velocity.y * dt,
       p1.position.z + p1.velocity.z * dt⟩ }
    let p3 := if -10 < p2.velocity.y then
        { p2 with velocity :=
          { p2.velocity with y := p2.velocity.y - 49/5 * dt * (1/10) } }
      else p2
    (true, p3)

/-- A sequence of `update` ticks, keeping the data of each step. -/
def particleRun (dts : List α) (p : ParticleData α) : ParticleData α :=
  dts.foldl (fun q dt => (particleUpdate dt q).2) p

end Particle

/-! ## Claim C3 (terminal velocity) -/

namespace Particle

/-- An alive particle at rest used by the C3 counterexample. -/
def c3p0 : ParticleData ℚ :=
  { position := ⟨0, 0, 0⟩, velocity := ⟨0, 0, 0⟩, life := 100, maxLife := 100 }

/-- C3 counterexample: one `update` with `dt = 20 ≥ 0` of an alive
particle whose vertical velocity is `0 ≥ -10` leaves it alive with
`velocity.y = -19.6 < -10`: the gravity term is gated, not clamped, so a
single large step overshoots the claimed terminal velocity. -/
theorem particleUpdate_velY_overshoots :
    (0 : ℚ) ≤ 20 ∧ -10 ≤ c3p0.velocity.y ∧
    (particleUpdate (20 : ℚ) c3p0).1 = true ∧
    ((particleUpdate (20 : ℚ) c3p0).2).velocity.y < -10 := by
  refine ⟨by norm_num, by norm_num [c3p0], ?_, ?_⟩ <;>
    norm_num [particleUpdate, c3p0]

theorem particleUpdate_velY_lower_bound {dt D : ℚ}
    {p : ParticleData ℚ} (_h0 : 0 ≤ dt) (hD : dt ≤ D)
    (hp : -(10 + 49/50 * D) ≤ p.velocity.y) :
    -(10 + 49/50 * D) ≤ ((particleUpdate dt p).2).velocity.y := by
  unfold particleUpdate
  dsimp only
  split
  · exact hp
  · split
    case isTrue hv =>
      dsimp only
      nlinarith
    case isFalse hv => exact hp

/-- C3 (amended): per update, gravity is applied only while
`velocity.y > -10` and subtracts exactly `0.98·dt`, so along any run of
`update` calls whose steps lie in `[0, D]` the vertical velocity never
drops below `-(10 + 0.98·D)` once it starts at or above that bound — in
particular never below `-10 - 0.98·dt` of the step that crosses `-10`. -/
theorem particle_velY_bounded (D : ℚ) (dts : List ℚ)
    (p : ParticleData ℚ) (hdts : ∀ d ∈ dts, 0 ≤ d ∧ d ≤ D)
    (hp : -(10 + 49/50 * D) ≤ p.velocity.y) :
    -(10 + 49/50 * D) ≤ (particleRun dts p).velocity.y := by
  induction dts generalizing p with
  | nil => exact hp
  | cons d rest ih =>
    have hd := hdts d (List.mem_cons_self d rest)
    exact ih ((particleUpdate d p).2)
      (fun e he => hdts e (List.mem_cons_of_mem _ he))
      (particleUpdate_velY_lower_bound hd.1 hd.2 hp)

/-- The particle for the C3 witness. -/
def c3pw : ParticleData ℚ :=
  { position := ⟨0, 0, 0⟩, velocity := ⟨0, 0, 0⟩, life := 10, maxLife := 10 }

/-- C3 witness: two unit steps from rest stay above `-(10 + 0.98)`. -/
theorem particle_velY_bounded_witness :
    -(10 + 49/50 * 1 : ℚ) ≤ (particleRun [1, 1] c3pw).velocity.y :=
  particle_velY_bounded 1 [1, 1] c3pw (by decide) (by norm_num [c3pw])

end Particle

/-! ## ParticleSystem spawn gating (src/components/ParticleSystem.ts) -/

namespace PSystem

structure PSState (α : Type) where
  particles : List (Particle.ParticleData α)
  spawnTimer : α
  maxParticles : Nat
  spawnRate : α
  enabled : Bool
deriving DecidableEq, Repr

variable {α : Type} [LinearOrderedField α]

/-- `ParticleSystem.update(deltaTime)`: when enabled, accumulate the
spawn timer and run every active particle's update, dropping (and
releasing to the pool, not modelled) the ones whose update returned
false. -/
def psUpdate (dt : α) (s : PSState α) : PSState α :=
  if s.enabled = false then s
  else
    { s with
      spawnTimer := s.spawnTimer + dt
      particles := (s.particles.map (Particle.particleUpdate dt)).filterMap
        fun r => if r.1 then some r.2 else none }

/-- `spawnParticle`: rejects (returns null, modelled `false`) when the
active count has reached `maxParticles`, else inserts the new particle.
The source builds the `ParticleData` from `Math.random` and a square
root; that nondeterministic construction is abstracted as the argument
`p`. -/
def spawnParticle (p : Particle.ParticleData α) (s : PSState α) :
    Bool × PSState α :=
  if s.maxParticles ≤ s.particles.length then (false, s)
  else (true, { s with particles := p :: s.particles })

/-- `spawnDataFlow`: returns early while
`spawnTimer < 1 / spawnRate`, otherwise attempts the spawn and sets
`spawnTimer = 0` regardless of the attempt's outcome. -/
def spawnDataFlow (p : Particle.ParticleData α) (s : PSState α) :
    PSState α :=
  if s.spawnTimer < 1 / s.spawnRate then s
  else { (spawnParticle p s).2 with spawnTimer := 0 }

end PSystem

/-! ## Claim C4 (spawn interval) -/

namespace PSystem

/-- A system whose particle cap is 0 (every spawn fails) and whose
interval has elapsed. -/
def c4sys : PSState ℚ :=
  { particles := [], spawnTimer := 5, maxParticles := 0
    spawnRate := 1, enabled := true }

/-- An arbitrary particle handed to the spawn calls. -/
def c4p : Particle.ParticleData ℚ :=
  { position := ⟨0, 0, 0⟩, velocity := ⟨0, 0, 0⟩, life := 1, maxLife := 1 }

/-- C4 counterexample: the interval has elapsed, the underlying spawn
fails (cap 0, no particle added), and yet `spawnDataFlow` resets
`spawnTimer` to 0 — the failed spawn does restart the interval,
contradicting the claim that only successful spawns do. -/
theorem spawnDataFlow_failed_spawn_restarts_interval :
    1 / c4sys.spawnRate ≤ c4sys.spawnTimer ∧
    (spawnDataFlow c4p c4sys).particles.length = 0 ∧
    (spawnDataFlow c4p c4sys).spawnTimer = 0 ∧
    c4sys.spawnTimer ≠ 0 := by
  refine ⟨by norm_num [c4sys], ?_, ?_, by norm_num [c4sys]⟩ <;>
    norm_num [spawnDataFlow, spawnParticle, c4sys]

/-- C4 (amended): `spawnDataFlow` is a no-op while the inter-spawn
interval `1 / spawnRate` has not elapsed on the accumulated timer; once
it has elapsed, the call resets the timer to 0 whether or not the
underlying spawn succeeded (a failed spawn also restarts the interval),
and the spawn adds a particle exactly when the cap allows. -/
theorem spawnDataFlow_gate (p : Particle.ParticleData ℚ) (s : PSState ℚ)
    (_hrate : 0 < s.spawnRate) :
    (s.spawnTimer < 1 / s.spawnRate → spawnDataFlow p s = s) ∧
    (1 / s.spawnRate ≤ s.spawnTimer →
      (spawnDataFlow p s).spawnTimer = 0 ∧
      (spawnDataFlow p s).particles.length =
        (if s.particles.length < s.maxParticles
          then s.particles.length + 1 else s.particles.length)) := by
  constructor
  · intro h
    rw [spawnDataFlow, if_pos h]
  · intro h
    rw [spawnDataFlow, if_neg (not_lt.mpr h)]
    refine ⟨rfl, ?_⟩
    by_cases hcap : s.maxParticles ≤ s.particles.length
    · rw [if_neg (not_lt.mpr hcap)]
      simp [spawnParticle, hcap]
    · rw [if_pos (lt_of_not_le hcap)]
      simp [spawnParticle, hcap]

/-- The system for the C4 witness: one free slot, interval elapsed. -/
def c4wsys : PSState ℚ :=
  { particles := [], spawnTimer := 2, maxParticles := 2
    spawnRate := 1, enabled := true }

/-- C4 witness: the gate law applied to a concrete system. -/
theorem spawnDataFlow_gate_witness :
    (c4wsys.spawnTimer < 1 / c4wsys.spawnRate →
      spawnDataFlow c4p c4wsys = c4wsys) ∧
    (1 / c4wsys.spawnRate ≤ c4wsys.spawnTimer →
      (spawnDataFlow c4p c4wsys).spawnTimer = 0 ∧
      (spawnDataFlow c4p c4wsys).particles.length =
        (if c4wsys.particles.length < c4wsys.maxParticles
          then c4wsys.particles.length + 1
          else c4wsys.particles.length)) :=
  spawnDataFlow_gate c4p c4wsys (by norm_num [c4wsys])

end PSystem

/-! ## LODManager (src/systems/LODManager.ts) -/

namespace LOD

inductive Level where
  | high
  | medium
  | low
  | culled
deriving DecidableEq, Repr

structure LODObj (α : Type) where
  lastDistance : α
  lastLODLevel : Level
  isVisible : Bool
  forceUpdate : Bool
deriving DecidableEq, Repr

structure Manager (α : Type) where
  objects : List (LODObj α)
  distances : α × α × α
  updateFrequency : α
  updateInterval : α
deriving DecidableEq, Repr

variable {α : Type} [LinearOrderedField α]

def markAllForUpdate (m : Manager α) : Manager α :=
  { m with objects := m.objects.map fun o => { o with forceUpdate := true } }

/-- `setDistances(distances)`: stores the thresholds and marks every
tracked object for a forced re-evaluation. -/
def setDistances (d : α × α × α) (m : Manager α) : Manager α :=
  markAllForUpdate { m with distances := d }

/-- `setUpdateFrequency(frequency)`: clamps to [5, 60] and recomputes
`updateInterval = 1000 / frequency`; the source marks no object here. -/
def setUpdateFrequency (f : α) (m : Manager α) : Manager α :=
  let f1 := max 5 (min 60 f)
  { m with updateFrequency := f1, updateInterval := 1000 / f1 }

/-- `updateLODObject` on one tracked object.  The camera-dependent
inputs — the world distance and the frustum test outcome — are
arguments; `hasFrustum` stands for `camera && enableFrustumCulling`.
Returns the updated record and whether `applyLODLevel` (and so the
component `setLOD(distance, thresholds)` hook) was invoked.  Note the
source sets `forceUpdate = false` before testing
`newLODLevel !== lastLODLevel || forceUpdate`. -/
def updateLODObject (distances : α × α × α) (hasFrustum inFrustum : Bool)
    (distance : α) (o : LODObj α) : LODObj α × Bool :=
  if o.forceUpdate = false ∧ ¬ 5 < |distance - o.lastDistance| then
    (o, false)
  else
    let o1 := { o with lastDistance := distance, forceUpdate := false }
    if hasFrustum = true ∧ inFrustum = false then
      ({ o1 with lastLODLevel := .culled, isVisible := false }, false)
    else
      let applyLevel := fun (newLevel : Level) =>
        let o2 := { o1 with isVisible := true }
        if newLevel ≠ o2.lastLODLevel ∨ o2.forceUpdate = true then
          ({ o2 with lastLODLevel := newLevel }, true)
        else (o2, false)
      if distance ≤ distances.1 then applyLevel .high
      else if distance ≤ distances.2.1 then applyLevel .medium
      else if distance ≤ distances.2.2 then applyLevel .low
      else ({ o1 with lastLODLevel := .culled, isVisible := false }, false)

end LOD

/-! ## Claims C5 and C6 (LOD forced updates; setLOD hook) -/

namespace LOD

/-- A tracked object that is currently not marked for update. -/
def c5obj : LODObj ℚ :=
  { lastDistance := 10, lastLODLevel := .high
    isVisible := true, forceUpdate := false }

def c5mgr : Manager ℚ :=
  { objects := [c5obj], distances := (50, 100, 200)
    updateFrequency := 30, updateInterval := 100/3 }

/-- C5 counterexample: after `setUpdateFrequency(20)` the tracked object
still has `forceUpdate = false` — a frequency change does not mark the
tracked objects, contrary to the claim. -/
theorem setUpdateFrequency_does_not_mark :
    c5obj.forceUpdate = false ∧
    ((setUpdateFrequency (20 : ℚ) c5mgr).objects.all
      fun o => o.forceUpdate) = false := by decide

/-- C5 (amended): a `setDistances` call marks every tracked object
`forceUpdate = true`; a `setUpdateFrequency` call only clamps the
frequency and recomputes the interval, leaving every tracked object —
in particular every `forceUpdate` flag — untouched. -/
theorem setDistances_marks_all_setUpdateFrequency_none
    (m : Manager ℚ) (d : ℚ × ℚ × ℚ) (f : ℚ) :
    ((setDistances d m).objects.all fun o => o.forceUpdate) = true ∧
    (setUpdateFrequency f m).objects = m.objects := by
  constructor
  · simp [setDistances, markAllForUpdate, List.all_map, Function.comp]
  · rfl

/-- A forced object whose distance and tier are unchanged. -/
def c6obj : LODObj ℚ :=
  { lastDistance := 30, lastLODLevel := .high
    isVisible := true, forceUpdate := true }

/-- C6: with thresholds (50, 100, 200), frustum culling off and camera
distance 30 (tier `high`, equal to the stored tier, distance unchanged),
an object entering the pass with `forceUpdate = true` is re-evaluated but
`applyLODLevel`/`setLOD` is NOT invoked: `forceUpdate` was already
cleared when the tier-change test runs, so its disjunct is dead code. -/
theorem updateLODObject_forced_same_tier_skips_setLOD :
    c6obj.forceUpdate = true ∧
    (updateLODObject ((50 : ℚ), 100, 200) false true 30 c6obj).2 = false ∧
    (updateLODObject ((50 : ℚ), 100, 200) false true 30 c6obj).1.lastLODLevel
      = Level.high := by decide

end LOD

/-! ## AnimationLoop (src/systems/AnimationLoop.ts) -/

namespace Loop

structure LoopConfig (α : Type) where
  maxDeltaTime : α
deriving DecidableEq, Repr

structure LoopState (α : Type) where
  isRunning : Bool
  isPaused : Bool
  lastTime : α
  elapsedTime : α
  deltaTime : α
  frameCount : Nat
deriving DecidableEq, Repr

variable {α : Type} [LinearOrderedField α]

/-- `loop(currentTime)` without scheduling and callback plumbing: the
delta/elapsed bookkeeping always runs first (`deltaTime =
min(raw/1000, maxDeltaTime)`, `elapsedTime += deltaTime`); only then is
a paused frame skipped, and neither the skip nor the variable-step
update changes these fields (the fixed-step accumulator feeds callback
invocations only and is omitted). -/
def loopTick (cfg : LoopConfig α) (currentTime : α) (s : LoopState α) :
    LoopState α :=
  if s.isRunning = false then s
  else
    let dt := min ((currentTime - s.lastTime) / 1000) cfg.maxDeltaTime
    { s with
      deltaTime := dt
      lastTime := currentTime
      elapsedTime := s.elapsedTime + dt
      frameCount := s.frameCount + 1 }

/-- `pause()`: only transitions within Running. -/
def pause (s : LoopState α) : LoopState α :=
  if s.isRunning = false ∨ s.isPaused = true then s
  else { s with isPaused := true }

/-- `resume()` at wall-clock `now`: clears the pause flag and resets the
delta reference `lastTime = performance.now()`. -/
def resume (now : α) (s : LoopState α) : LoopState α :=
  if s.isRunning = false ∨ s.isPaused = false then s
  else { s with isPaused := false, lastTime := now }

end Loop

/-! ## Claim C7 (pause/resume timing) -/

namespace Loop

def c7cfg : LoopConfig ℚ := { maxDeltaTime := 1/10 }

/-- A running, paused loop at elapsed time 0. -/
def c7paused : LoopState ℚ :=
  { isRunning := true, isPaused := true, lastTime := 0
    elapsedTime := 0, deltaTime := 0, frameCount := 0 }

/-- C7 counterexample: a tick at t = 16ms of the paused loop advances
`elapsedTime` from 0 to 0.016 — the bookkeeping precedes the paused
check, so wall-clock time spent paused IS counted as elapsed simulation
time. -/
theorem loopTick_elapsed_advances_while_paused :
    c7paused.isPaused = true ∧
    (loopTick c7cfg 16 c7paused).elapsedTime = 2/125 ∧
    c7paused.elapsedTime = 0 := by
  refine ⟨rfl, ?_, rfl⟩
  norm_num [loopTick, c7cfg, c7paused, min_def]

/-- C7 (amended): `resume()` resets the delta reference to the resume
instant, so the first tick after resume computes `deltaTime =
min((t − resumeTime)/1000, maxDeltaTime)` — normal frame cadence,
independent of the paused duration and of the stale pre-pause reference,
and capped by `maxDeltaTime`.  `elapsedTime`, however, does advance over
the paused interval (see the counterexample). -/
theorem loopTick_after_resume (cfg : LoopConfig ℚ) (s : LoopState ℚ)
    (now t : ℚ) (hrun : s.isRunning = true) (hpause : s.isPaused = true) :
    (loopTick cfg t (resume now s)).deltaTime
        = min ((t - now) / 1000) cfg.maxDeltaTime ∧
    (loopTick cfg t (resume now s)).deltaTime ≤ cfg.maxDeltaTime := by
  have hres : resume now s = { s with isPaused := false, lastTime := now } := by
    rw [resume, if_neg]
    simp [hrun, hpause]
  rw [hres]
  have hdt : (loopTick cfg t { s with isPaused := false, lastTime := now }).deltaTime
      = min ((t - now) / 1000) cfg.maxDeltaTime := by
    rw [loopTick, if_neg (by simp [hrun])]
  exact ⟨hdt, hdt ▸ min_le_right _ _⟩

/-- The loop for the C7 witness: paused with a stale reference. -/
def c7wstate : LoopState ℚ :=
  { isRunning := true, isPaused := true, lastTime := 3
    elapsedTime := 5, deltaTime := 0, frameCount := 7 }

/-- C7 witness: the post-resume delta law at resume time 100, tick 116. -/
theorem loopTick_after_resume_witness :
    (loopTick c7cfg 116 (resume 100 c7wstate)).deltaTime
        = min ((116 - 100) / 1000) c7cfg.maxDeltaTime ∧
    (loopTick c7cfg 116 (resume 100 c7wstate)).deltaTime
        ≤ c7cfg.maxDeltaTime :=
  loopTick_after_resume c7cfg c7wstate 100 116 rfl rfl

end Loop

/-! ## Camera controller (Camera.ts) -/

namespace Camera

structure CameraState (α : Type) where
  distance : α
  angle : α
  elevation : α
  target : Vec3 α
  fov : α
deriving DecidableEq, Repr

variable {α : Type} [LinearOrderedField α]

/-- The angle-difference wrap of `Camera.update`:
`if (d > π) d -= 2π; if (d < -π) d += 2π` — two conditional corrections,
not a reduction modulo 2π.  `Math.PI` is the parameter `pi` so the
definition reads at any field and is stated at `ℝ` with the real π. -/
def wrapDiff (pi d : α) : α :=
  let d1 := if pi < d then d - pi * 2 else d
  if d1 < -pi then d1 + pi * 2 else d1

/-- One scalar smoothing step of `Camera.update`: move `cur` toward
`tgt` by `diff * smoothing` when `|diff|` exceeds the per-field
epsilon. -/
def smoothField (eps smoothing cur tgt : α) : α :=
  if eps < |tgt - cur| then cur + (tgt - cur) * smoothing else cur

/-- `Camera.update` on the orbital state: distance (ε 0.01), wrapped
angle (ε 0.001), elevation (ε 0.001), look-at target (joint ε 0.01 per
component) and fov (ε 0.1).  The wall-clock transition flag and the
spherical position recomputation touch rendering state only and are
omitted. -/
def update (pi smoothing : α) (cur tgt : CameraState α) : CameraState α :=
  let adiff := wrapDiff pi (tgt.angle - cur.angle)
  { distance := smoothField (1/100) smoothing cur.distance tgt.distance
    angle := if 1/1000 < |adiff| then cur.angle + adiff * smoothing
      else cur.angle
    elevation := smoothField (1/1000) smoothing cur.elevation tgt.elevation
    target :=
      if 1/100 < |tgt.target.x - cur.target.x| ∨
          1/100 < |tgt.target.y - cur.target.y| ∨
          1/100 < |tgt.target.z - cur.target.z| then
        ⟨cur.target.x + (tgt.target.x - cur.target.x) * smoothing,
         cur.target.y + (tgt.target.y - cur.target.y) * smoothing,
         cur.target.z + (tgt.target.z - cur.target.z) * smoothing⟩
      else cur.target
    fov := smoothField (1/10) smoothing cur.fov tgt.fov }

/-- The `setDistance` clamp, `max(MIN_CAMERA_DISTANCE,
min(MAX_CAMERA_DISTANCE, d))` with the constants 30 and 300 of
src/types. -/
def setDistanceClamp (d : α) : α := max 30 (min 300 d)

/-- The `setElevation` clamp `max(0.1, min(π / 2.5, e))`. -/
def setElevationClamp (pi e : α) : α := max (1/10) (min (pi / (5/2)) e)

/-- The `setFOV` clamp `max(10, min(120, fov))`. -/
def setFOVClamp (f : α) : α := max 10 (min 120 f)

end Camera

/-! ## Claim C8 (angle wrap) -/

namespace Camera

/-- C8 counterexample: for current angle 0 and target 4π, the difference
used for smoothing is `wrapDiff π (4π − 0) = 2π`, not in (−π, π]: the
single conditional subtraction wraps only raw differences inside
(−3π, 3π], so arbitrary real angle pairs are not always wrapped onto the
shorter rotational path. -/
theorem wrapDiff_four_pi_outside :
    wrapDiff Real.pi (4 * Real.pi - 0) ∉ Set.Ioc (-Real.pi) Real.pi := by
  have hpi := Real.pi_pos
  have h1 : wrapDiff Real.pi (4 * Real.pi - 0) = 2 * Real.pi := by
    have hinner : Real.pi < 4 * Real.pi - 0 := by linarith
    have houter : ¬ (4 * Real.pi - 0 - Real.pi * 2 < -Real.pi) := by linarith
    simp only [wrapDiff]
    rw [if_pos hinner, if_neg houter]
    ring
  rw [h1, Set.mem_Ioc]
  push_neg
  intro _
  linarith

/-- C8 (amended): the two conditional corrections of `Camera.update` put
the raw difference `target − current` into (−π, π] exactly on the single
wrap range: whenever the raw difference lies in (−3π, 3π] and is not
−π itself, the wrapped difference lies in (−π, π].  (Outside that range,
e.g. at 4π, or at exactly −π, it does not: see the counterexample.) -/
theorem wrapDiff_mem_Ioc (d : ℝ) (h1 : -(3 * Real.pi) < d)
    (h2 : d ≤ 3 * Real.pi) (h3 : d ≠ -Real.pi) :
    wrapDiff Real.pi d ∈ Set.Ioc (-Real.pi) Real.pi := by
  have hpi := Real.pi_pos
  rw [Set.mem_Ioc]
  simp only [wrapDiff]
  by_cases hd : Real.pi < d
  · rw [if_pos hd, if_neg (by linarith)]
    constructor <;> linarith
  · rw [if_neg hd]
    by_cases hd2 : d < -Real.pi
    · rw [if_pos hd2]
      constructor <;> linarith [not_lt.mp hd]
    · rw [if_neg hd2]
      have : -Real.pi ≤ d := not_lt.mp hd2
      exact ⟨lt_of_le_of_ne this (Ne.symm h3), not_lt.mp hd⟩

/-- C8 witness: the wrap law at raw difference π (stays π, in (−π, π]). -/
theorem wrapDiff_mem_Ioc_witness :
    wrapDiff Real.pi Real.pi ∈ Set.Ioc (-Real.pi) Real.pi :=
  wrapDiff_mem_Ioc Real.pi (by linarith [Real.pi_pos])
    (by linarith [Real.pi_pos])
    (fun h => Real.pi_ne_zero (by linarith [congrArg id h]))

end Camera

/-! ## Claim C9 (camera range preservation) -/

namespace Camera

theorem smoothField_mem {eps smoothing cur tgt lo hi : ℝ}
    (hs0 : 0 < smoothing) (hs1 : smoothing ≤ 1)
    (hc1 : lo ≤ cur) (hc2 : cur ≤ hi)
    (ht1 : lo ≤ tgt) (ht2 : tgt ≤ hi) :
    lo ≤ smoothField eps smoothing cur tgt ∧
      smoothField eps smoothing cur tgt ≤ hi := by
  unfold smoothField
  split
  · have e1 : 0 ≤ (cur - lo) * (1 - smoothing) :=
      mul_nonneg (by linarith) (by linarith)
    have e2 : 0 ≤ (tgt - lo) * smoothing :=
      mul_nonneg (by linarith) (by linarith)
    have e3 : 0 ≤ (hi - cur) * (1 - smoothing) :=
      mul_nonneg (by linarith) (by linarith)
    have e4 : 0 ≤ (hi - tgt) * smoothing :=
      mul_nonneg (by linarith) (by linarith)
    constructor <;> nlinarith
  · exact ⟨hc1, hc2⟩

/-- C9: when the smoothing factor lies in (0, 1], `Camera.update`
preserves the clamp-range invariants on the in-flight values: if the
current and target distance, elevation and fov lie in [30, 300] (the
MIN/MAX_CAMERA_DISTANCE constants), [0.1, π/2.5] and [10, 120]
respectively, they still do after `update`, because each smoothing step
is a convex combination of current and target. -/
theorem camera_update_preserves_ranges (smoothing : ℝ)
    (cur tgt : CameraState ℝ)
    (hs0 : 0 < smoothing) (hs1 : smoothing ≤ 1)
    (hd1 : 30 ≤ cur.distance) (hd2 : cur.distance ≤ 300)
    (hd3 : 30 ≤ tgt.distance) (hd4 : tgt.distance ≤ 300)
    (he1 : 1/10 ≤ cur.elevation) (he2 : cur.elevation ≤ Real.pi / (5/2))
    (he3 : 1/10 ≤ tgt.elevation) (he4 : tgt.elevation ≤ Real.pi / (5/2))
    (hf1 : 10 ≤ cur.fov) (hf2 : cur.fov ≤ 120)
    (hf3 : 10 ≤ tgt.fov) (hf4 : tgt.fov ≤ 120) :
    (30 ≤ (update Real.pi smoothing cur tgt).distance ∧
      (update Real.pi smoothing cur tgt).distance ≤ 300) ∧
    (1/10 ≤ (update Real.pi smoothing cur tgt).elevation ∧
      (update Real.pi smoothing cur tgt).elevation ≤ Real.pi / (5/2)) ∧
    (10 ≤ (update Real.pi smoothing cur tgt).fov ∧
      (update Real.pi smoothing cur tgt).fov ≤ 120) :=
  ⟨smoothField_mem hs0 hs1 hd1 hd2 hd3 hd4,
   smoothField_mem hs0 hs1 he1 he2 he3 he4,
   smoothField_mem hs0 hs1 hf1 hf2 hf3 hf4⟩

/-- The in-range camera state of the C9 witness. -/
def c9state : CameraState ℝ :=
  { distance := 100, angle := 0, elevation := 1
    target := ⟨0, 0, 0⟩, fov := 50 }

/-- C9 witness: the ranges are preserved at a concrete in-range state
with smoothing 1/2. -/
theorem camera_update_preserves_ranges_witness :
    (30 ≤ (update Real.pi (1/2) c9state c9state).distance ∧
      (update Real.pi (1/2) c9state c9state).distance ≤ 300) ∧
    (1/10 ≤ (update Real.pi (1/2) c9state c9state).elevation ∧
      (update Real.pi (1/2) c9state c9state).elevation
        ≤ Real.pi / (5/2)) ∧
    (10 ≤ (update Real.pi (1/2) c9state c9state).fov ∧
      (update Real.pi (1/2) c9state c9state).fov ≤ 120) :=
  camera_update_preserves_ranges (1/2) c9state c9state
    (by norm_num) (by norm_num)
    (by norm_num [c9state]) (by norm_num [c9state])
    (by norm_num [c9state]) (by norm_num [c9state])
    (by norm_num [c9state])
    (by rw [le_div_iff₀ (by norm_num : (0:ℝ) < 5/2)]
        norm_num [c9state]
        nlinarith [Real.pi_gt_three])
    (by norm_num [c9state])
    (by rw [le_div_iff₀ (by norm_num : (0:ℝ) < 5/2)]
        norm_num [c9state]
        nlinarith [Real.pi_gt_three])
    (by norm_num [c9state]) (by norm_num [c9state])
    (by norm_num [c9state]) (by norm_num [c9state])

end Camera
